import Mathlib

/-!
Verification development for the EDI compliance rules engine.

The definitions below are a shallow embedding of the Python sources:
  * `src/parser/segment_utils.py` and `src/parser/edi_parser.py`
    (text normalisation, segment/element splitting, `parse_text`);
  * `src/rules/rule_loader.py` (`_merge_rulesets`, per-category tier merge);
  * `src/validator/error_collector.py` (`ValidationError`, `ErrorCollector`);
  * `src/validator/rule_evaluators.py` (the four rule evaluators);
  * `src/validator/validation_engine.py` (`ValidationResult`, orchestration).

Raw document text is modelled as `List Char`; parsed segment/element values
are modelled as `String`.  Python exceptions are modelled with `Except`,
and Python `None`-able fields with `Option`.
-/

namespace EDI

/-! ## Splitter (`src/parser/segment_utils.py`) -/

/-- Python whitespace characters recognised by `str.strip()` (ASCII subset:
space, tab, newline, carriage return, vertical tab, form feed). -/
def isPyWS (c : Char) : Bool :=
  c = ' ' || c = '\t' || c = '\n' || c = '\r' || c = '\x0b' || c = '\x0c'

/-- Embedding of Python `str.strip()` on character lists. -/
def pstrip (l : List Char) : List Char :=
  ((l.dropWhile isPyWS).reverse.dropWhile isPyWS).reverse

/-- Embedding of Python `str.strip()` on strings. -/
def pyStrip (s : String) : String :=
  String.mk (pstrip s.data)

/-- Embedding of Python `str.split(sep)` for a single-character separator:
no filtering, empty parts are retained (`"".split(sep) == [""]`). -/
def splitOnChar (sep : Char) : List Char → List (List Char)
  | [] => [[]]
  | c :: rest =>
    if c = sep then [] :: splitOnChar sep rest
    else
      match splitOnChar sep rest with
      | [] => [[c]]
      | h :: t => (c :: h) :: t

/-- Embedding of Python `sep.join(parts)` for a single-character separator. -/
def joinSep (sep : Char) : List (List Char) → List Char
  | [] => []
  | [x] => x
  | x :: xs => x ++ sep :: joinSep sep xs

/-- One-pass embedding of `.replace('\r\n', '\n').replace('\r', '\n')`
from `normalize_edi_text`. -/
def normalizeCRLF : List Char → List Char
  | [] => []
  | '\r' :: '\n' :: rest => '\n' :: normalizeCRLF rest
  | '\r' :: rest => '\n' :: normalizeCRLF rest
  | c :: rest => c :: normalizeCRLF rest

/-- Embedding of `normalize_edi_text`: strip, normalise line endings, strip
each line, drop blank lines, re-join with newlines. -/
def normalize_edi_text (raw : List Char) : List Char :=
  let n := normalizeCRLF (pstrip raw)
  let lines := (splitOnChar '\n' n).map pstrip
  joinSep '\n' (lines.filter (fun l => !l.isEmpty))

/-- The default segment terminator from `config/settings.py`. -/
def SEGMENT_TERMINATOR : Char := '~'

/-- The default element separator from `config/settings.py`. -/
def ELEMENT_SEPARATOR : Char := '*'

/-- Embedding of `split_segments`: normalise, split on the segment
terminator, strip each part and drop the empty ones. -/
def split_segments (edi_text : List Char)
    (terminator : Char := SEGMENT_TERMINATOR) : List (List Char) :=
  let parts := splitOnChar terminator (normalize_edi_text edi_text)
  (parts.map pstrip).filter (fun s => !s.isEmpty)

/-- Embedding of `split_elements`: split on the element separator, keeping
empty strings at their positions (no filtering at all). -/
def split_elements (segment : List Char)
    (separator : Char := ELEMENT_SEPARATOR) : List (List Char) :=
  splitOnChar separator segment

/-! ## Document model (`src/parser/edi_parser.py`)

A parsed segment dictionary carries the fields the validators read:
`line`, `segment_id` and `elements` (the `element_count` and `raw` fields of
the Python dict are derived and never read by the evaluators, and the
document-level `metadata`/`statistics` entries are likewise not read by any
code a claim refers to, so they are not modelled). -/

/-- One parsed segment dictionary as built by `_parse_all_segments`. -/
structure Seg where
  line : Nat
  segment_id : String
  elements : List String
  deriving Repr, DecidableEq

/-- The parsed EDI document as consumed by the validators (its
`"segments"` entry). -/
structure ParsedEDI where
  segments : List Seg
  deriving Repr, DecidableEq

/-- Embedding of `_parse_all_segments`: ascending line numbers starting at 1
in parse order (`split_elements` never returns an empty list, so the
`if not elements: continue` branch of the Python loop never fires). -/
def parse_all_segments (segs : List (List Char)) : List Seg :=
  (segs.mapIdx fun i s =>
    let elements := split_elements s
    { line := i + 1
      segment_id := String.mk (elements.headD [])
      elements := elements.map String.mk })

/-- Embedding of `EDIParser.parse_text`: raises `ValueError` on blank input
or when no segments are found, otherwise returns the parsed segments. -/
def parse_text (edi_text : List Char) : Except String (List Seg) :=
  if (pstrip edi_text).isEmpty then .error "EDI text is empty"
  else
    let segments := split_segments (normalize_edi_text edi_text)
    if segments.isEmpty then .error "No segments found in EDI text"
    else .ok (parse_all_segments segments)

/-! ## Issues and the collector (`src/validator/error_collector.py`) -/

/-- One `ValidationError` record (the wall-clock `timestamp` field is not
modelled). -/
structure Issue where
  rule_id : String
  severity : String
  message : String
  segment_id : Option String := none
  line_number : Option Nat := none
  element_position : Option Nat := none
  expected_value : Option String := none
  actual_value : Option String := none
  context : List (String × String) := []
  deriving Repr, DecidableEq

/-- The `ErrorCollector`: three severity-classified lists. -/
structure ErrorCollector where
  errors : List Issue := []
  warnings : List Issue := []
  info : List Issue := []
  deriving Repr, DecidableEq

namespace ErrorCollector

/-- Embedding of Python `str.upper()` on the ASCII fragment (severity
strings are ASCII). -/
def pyUpper (s : String) : String :=
  String.mk (s.data.map Char.toUpper)

/-- Embedding of `ErrorCollector.add_error`: the stored record upper-cases
its severity (`ValidationError.__init__`), and the classification into the
three lists is by upper-cased severity with `INFO` as the catch-all. -/
def addError (c : ErrorCollector) (i : Issue) : ErrorCollector :=
  let stored := { i with severity := pyUpper i.severity }
  if pyUpper i.severity = "ERROR" then { c with errors := c.errors ++ [stored] }
  else if pyUpper i.severity = "WARNING" then { c with warnings := c.warnings ++ [stored] }
  else { c with info := c.info ++ [stored] }

/-- Embedding of `ErrorCollector.has_errors`: `len(self.errors) > 0`. -/
def has_errors (c : ErrorCollector) : Bool :=
  decide (0 < c.errors.length)

/-- Embedding of `ErrorCollector.get_all_errors`. -/
def get_all_errors (c : ErrorCollector) : List Issue :=
  c.errors ++ c.warnings ++ c.info

end ErrorCollector

/-! ## Rule merging (`src/rules/rule_loader.py`, `_merge_rulesets`)

The per-category merge loop (lines 227-253) reads exactly two keys of each
rule dict: `rule_id` (a falsy value — absent key or empty string — makes the
loop skip the rule) and, for the retailer tier only, `applies_to_doc_types`
(default `[]`).  Everything else in the rule dict is opaque payload, modelled
by a type parameter.  Python's insertion-ordered dict is modelled as an
association list in which updating an existing key rewrites the entry in
place.  The separate `_apply_overrides` pass and the `ruleset_info` /
optional-category bookkeeping are not modelled: no claim depends on them. -/

/-- A rule dict as seen by the category-merge loop: its `rule_id` (with `""`
standing for both an absent and an empty id, which Python treats alike), its
`applies_to_doc_types` list (default `[]`), and its remaining content. -/
structure MRule (α : Type) where
  rule_id : String
  applies_to_doc_types : List String := []
  content : α
  deriving Repr, DecidableEq

/-- Insertion-ordered dict update: rewrite an existing key in place,
otherwise append at the end (Python dict assignment semantics). -/
def dictInsert {β : Type} (m : List (String × β)) (k : String) (v : β) :
    List (String × β) :=
  match m with
  | [] => [(k, v)]
  | (k1, v1) :: rest =>
    if k1 = k then (k, v) :: rest else (k1, v1) :: dictInsert rest k v

/-- Ordered-dict lookup. -/
def lookupKey {β : Type} (m : List (String × β)) (k : String) : Option β :=
  match m with
  | [] => none
  | (k1, v1) :: rest => if k1 = k then some v1 else lookupKey rest k

/-- One iteration of the core/document tier loops: skip falsy rule ids,
otherwise overwrite by id (`category_rules[rule_id] = deepcopy(rule)`). -/
def insertRule {α : Type} (m : List (String × MRule α)) (r : MRule α) :
    List (String × MRule α) :=
  if r.rule_id = "" then m else dictInsert m r.rule_id r

/-- The core or document tier loop of the category merge. -/
def insertTier {α : Type} (m : List (String × MRule α)) (tier : List (MRule α)) :
    List (String × MRule α) :=
  tier.foldl insertRule m

/-- The retailer tier loop: a rule is inserted only when its
`applies_to_doc_types` restriction is empty or mentions the current document
type. -/
def insertRetailerTier {α : Type} (m : List (String × MRule α))
    (tier : List (MRule α)) (docType : String) : List (String × MRule α) :=
  tier.foldl
    (fun m r =>
      if r.rule_id = "" then m
      else if r.applies_to_doc_types.isEmpty || r.applies_to_doc_types.contains docType then
        dictInsert m r.rule_id r
      else m)
    m

/-- The per-category merge of `_merge_rulesets`: core tier first, overwritten
by the document tier, overwritten by the (document-type-filtered) retailer
tier, then the dict values in insertion order. -/
def mergeCategory {α : Type} (core doc ret : List (MRule α)) (docType : String) :
    List (MRule α) :=
  (insertRetailerTier (insertTier (insertTier [] core) doc) ret docType).map Prod.snd

/-- One tier of rule definitions: the four category arrays of a rule file. -/
structure RuleTier (α : Type) where
  required_segments : List (MRule α) := []
  element_rules : List (MRule α) := []
  conditional_rules : List (MRule α) := []
  cross_segment_rules : List (MRule α) := []
  deriving Repr, DecidableEq

/-- The category loop of `_merge_rulesets` applied to all four categories. -/
def mergeRulesets {α : Type} (core doc ret : RuleTier α) (docType : String) :
    RuleTier α :=
  { required_segments := mergeCategory core.required_segments doc.required_segments ret.required_segments docType
    element_rules := mergeCategory core.element_rules doc.element_rules ret.element_rules docType
    conditional_rules := mergeCategory core.conditional_rules doc.conditional_rules ret.conditional_rules docType
    cross_segment_rules := mergeCategory core.cross_segment_rules doc.cross_segment_rules ret.cross_segment_rules docType }

/-- The empty tier (used when no retailer is given: `ret = {}`). -/
def emptyTier (α : Type) : RuleTier α := {}

/-- Fetching the merged rule carrying a given id: first (and, by the merge
invariant, only) list entry whose `rule_id` matches. -/
def findRuleById {α : Type} (rules : List (MRule α)) (k : String) :
    Option (MRule α) :=
  rules.find? (fun r => r.rule_id == k)

/-- Last-write accumulator: after folding a tier with `pickLast k`, the
accumulator holds the last tier rule whose id is `k`. -/
def pickLast {α : Type} (k : String) (acc : Option (MRule α)) (r : MRule α) :
    Option (MRule α) :=
  if r.rule_id = k then some r else acc

/-- Well-formedness of a merge dictionary: every entry's value carries its
key as a non-empty rule id, and keys are pairwise distinct. -/
def GoodMap {α : Type} (m : List (String × MRule α)) : Prop :=
  (∀ kv ∈ m, kv.2.rule_id = kv.1 ∧ kv.1 ≠ "") ∧ (m.map Prod.fst).Nodup

/-! ## Shared helpers for the evaluators (`src/validator/rule_evaluators.py`) -/

/-- Python `f"{n:02d}"` formatting for the small non-negative element
positions used in messages. -/
def fmt02 (n : Nat) : String :=
  if n < 10 then "0" ++ toString n else toString n

/-- Python string interpolation of a possibly-`None` value
(`f"{x}"` prints `None` for `None`). -/
def optStr (o : Option String) : String :=
  match o with
  | some s => s
  | none => "None"

/-- Truthiness-respecting `a or b` on an optional message string:
`message_override or default` falls back to the default when the override is
absent or empty. -/
def msgOr (o : Option String) (d : String) : String :=
  match o with
  | some s => if s = "" then d else s
  | none => d

/-- Valid continuation of a Python integer-literal digit run: underscores
are allowed only between digits. -/
def pyDigitsTail : List Char → Bool
  | [] => true
  | ['_'] => false
  | '_' :: c :: rest => c.isDigit && pyDigitsTail rest
  | c :: rest => c.isDigit && pyDigitsTail rest

/-- A non-empty digit run with internal underscores, as accepted by
Python's `int()`. -/
def pyDigitsOK : List Char → Bool
  | [] => false
  | c :: rest => c.isDigit && pyDigitsTail rest

/-- Numeric value of an (underscore-laced) ASCII digit run. -/
def pyDigitsVal (l : List Char) : Nat :=
  (l.filter (fun c => c ≠ '_')).foldl (fun n c => n * 10 + (c.toNat - '0'.toNat)) 0

/-- Embedding of Python `int(s)` on the ASCII fragment: optional
surrounding whitespace, optional sign, digits with internal underscores;
`none` models the raised `ValueError`. -/
def pyInt (s : String) : Option Int :=
  match ((pyStrip s).data : List Char) with
  | '+' :: rest => if pyDigitsOK rest then some (pyDigitsVal rest) else none
  | '-' :: rest => if pyDigitsOK rest then some (-(pyDigitsVal rest : Int)) else none
  | l => if pyDigitsOK l then some (pyDigitsVal l) else none

/-! ## Required-segment evaluator (`RequiredSegmentValidator`) -/

/-- One required-segment rule, with the fields and defaults the evaluator
reads via `rule.get`. -/
structure ReqRule where
  rule_id : String
  severity : String
  description : String
  segment_id : Option String := none
  min_occurrences : Nat := 0
  max_occurrences : Option Nat := none
  element_filters : List (Nat × String) := []
  deriving Repr, DecidableEq

/-- Embedding of `_find_matching_segments`: id equality plus every element
filter in range and matching verbatim (an empty filter dict matches
everything). -/
def findMatchingSegments (segments : List Seg) (segment_id : Option String)
    (filters : List (Nat × String)) : List Seg :=
  segments.filter fun s =>
    some s.segment_id == segment_id &&
      filters.all (fun pv => pv.1 < s.elements.length && s.elements.getD pv.1 "" == pv.2)

/-- Issues emitted by `RequiredSegmentValidator.validate` for one rule. -/
def requiredSegmentIssues (segments : List Seg) (rule : ReqRule) : List Issue :=
  let matching := findMatchingSegments segments rule.segment_id rule.element_filters
  let count := matching.length
  let minIssues :=
    if count < rule.min_occurrences then
      [{ rule_id := rule.rule_id
         severity := rule.severity
         message := rule.description ++ " (found " ++ toString count ++
           ", expected at least " ++ toString rule.min_occurrences ++ ")"
         segment_id := rule.segment_id
         expected_value := some ("min " ++ toString rule.min_occurrences)
         actual_value := some (toString count) }]
    else []
  let maxIssues :=
    match rule.max_occurrences with
    | none => []
    | some m =>
      if m < count then
        [{ rule_id := rule.rule_id
           severity := rule.severity
           message := optStr rule.segment_id ++ " appears too many times (found " ++
             toString count ++ ", max " ++ toString m ++ ")"
           segment_id := rule.segment_id
           line_number := if 0 < count then (matching.get? m).map Seg.line else none
           expected_value := some ("max " ++ toString m)
           actual_value := some (toString count) }]
      else []
  minIssues ++ maxIssues

/-- Embedding of `RequiredSegmentValidator.validate`: the issues appended to
the collector, in emission order. -/
def requiredSegmentValidate (doc : ParsedEDI) (rules : List ReqRule) : List Issue :=
  rules.foldl (fun acc r => acc ++ requiredSegmentIssues doc.segments r) []

/-! ## Conditional evaluator (`ConditionalRuleValidator`) -/

/-- The `required_element` sub-dict of a conditional rule's then-clause. -/
structure ReqElem where
  segment : Option String := none
  element : Nat := 0
  deriving Repr, DecidableEq

/-- The `condition` dict of a conditional rule.  `if_element` is put through
`int(x) if x else None`, so the Python-falsy value `0` behaves like an
absent position. -/
structure Condition where
  if_segment : Option String := none
  if_element : Option Nat := none
  if_value : Option String := none
  if_value_exists : Bool := false
  deriving Repr, DecidableEq

/-- The `then` dict of a conditional rule. -/
structure ThenClause where
  required_segments : List String := []
  within_loop : Option String := none
  required_element : Option ReqElem := none
  message : Option String := none
  deriving Repr, DecidableEq

/-- One conditional (if/then) rule. -/
structure CondRule where
  rule_id : String
  severity : String
  condition : Condition := {}
  then_clause : ThenClause := {}
  deriving Repr, DecidableEq

/-- The `int(if_element) if if_element else None` computation: Python
treats the integer `0` as falsy. -/
def ifElementPos (c : Condition) : Option Nat :=
  match c.if_element with
  | some n => if n = 0 then none else some n
  | none => none

/-- The forward window scanned by `_check_then_clause` for a `within_loop`
then-clause: segments after the trigger line, stopping at the loop-boundary
id, with the append-then-check size limit of the Python loop (the check
`len(loop_segments) > 10` runs after the append, so an eleventh segment is
admitted before the loop breaks). -/
def loopWindowGo (triggerLine : Nat) (w : String) :
    List Seg → List Seg → List Seg
  | [], acc => acc
  | s :: rest, acc =>
    if triggerLine < s.line then
      if s.segment_id = w then acc
      else
        let acc2 := acc ++ [s]
        if 10 < acc2.length then acc2 else loopWindowGo triggerLine w rest acc2
    else loopWindowGo triggerLine w rest acc

/-- The forward window of `_check_then_clause` (see `loopWindowGo`). -/
def loopWindow (allSegments : List Seg) (triggerLine : Nat) (w : String) :
    List Seg :=
  loopWindowGo triggerLine w allSegments []

/-- The segment pool a required-segment obligation is checked against:
the bounded forward window when `within_loop` is truthy, the whole document
otherwise. -/
def thenSearchSegments (tc : ThenClause) (triggerLine : Nat)
    (allSegments : List Seg) : List Seg :=
  match tc.within_loop with
  | some w => if w = "" then allSegments else loopWindow allSegments triggerLine w
  | none => allSegments

/-- Embedding of `_check_then_clause`: missing required segments (checked
against the loop window or the whole document) followed by the
required-element check on the triggering segment itself. -/
def checkThenClause (rule : CondRule) (trigger : Seg) (allSegments : List Seg)
    (tc : ThenClause) : List Issue :=
  let segIssues :=
    if tc.required_segments.isEmpty then []
    else
      let pool := thenSearchSegments tc trigger.line allSegments
      tc.required_segments.foldl
        (fun acc req =>
          if pool.any (fun s => s.segment_id == req) then acc
          else
            acc ++ [{ rule_id := rule.rule_id
                      severity := rule.severity
                      message := msgOr tc.message
                        (req ++ " is required when " ++ trigger.segment_id ++ " is present")
                      segment_id := some trigger.segment_id
                      line_number := some trigger.line
                      context := [("expected_segment", req)] }])
        []
  let elemIssues :=
    match tc.required_element with
    | none => []
    | some re =>
      if re.segment == some trigger.segment_id then
        if trigger.elements.length ≤ re.element ||
            pyStrip (trigger.elements.getD re.element "") = "" then
          [{ rule_id := rule.rule_id
             severity := rule.severity
             message := msgOr tc.message (optStr re.segment ++ fmt02 re.element ++ " is required")
             segment_id := re.segment
             line_number := some trigger.line
             element_position := some re.element }]
        else []
      else []
  segIssues ++ elemIssues

/-- Whether the trigger condition of a conditional rule is met on a segment
that already matched `if_segment` (the `if/elif` pair of the Python loop). -/
def conditionMet (c : Condition) (s : Seg) : Bool :=
  match ifElementPos c with
  | none => false
  | some p =>
    if p < s.elements.length then
      let v := pyStrip (s.elements.getD p "")
      (match c.if_value with
       | some iv => iv ≠ "" && v == iv
       | none => false) ||
      (c.if_value_exists && v ≠ "")
    else false

/-- Embedding of `ConditionalRuleValidator.validate`. -/
def conditionalValidate (doc : ParsedEDI) (rules : List CondRule) : List Issue :=
  rules.foldl
    (fun acc rule =>
      doc.segments.foldl
        (fun acc s =>
          if some s.segment_id == rule.condition.if_segment &&
              conditionMet rule.condition s then
            acc ++ checkThenClause rule s doc.segments rule.then_clause
          else acc)
        acc)
    []

/-! ## Cross-segment evaluator (`CrossSegmentValidator`) -/

/-- One `match_pairs` entry of an element-match rule. -/
structure MatchPair where
  segment_1 : Option String := none
  element_1 : Nat := 0
  segment_2 : Option String := none
  element_2 : Nat := 0
  deriving Repr, DecidableEq

/-- The `validation_logic` dict of a cross-segment rule, with the per-type
keys the three dispatch branches read via `.get`. -/
structure CrossLogic where
  type : String
  source_segment : Option String := none
  target_segment : Option String := none
  target_element : Nat := 0
  match_pairs : List MatchPair := []
  segment_id : Option String := none
  element_position : Nat := 0
  required_value : Option String := none
  message : Option String := none
  deriving Repr, DecidableEq

/-- One cross-segment rule. -/
structure CrossRule where
  rule_id : String
  severity : String
  validation_logic : CrossLogic
  deriving Repr, DecidableEq

/-- The mismatch issue of `_validate_count_match`: expected is the actual
source-segment count, actual is the declared (stripped) value. -/
def countMismatchIssue (rule : CrossRule) (logic : CrossLogic) (sourceCount : Nat)
    (t : Seg) (declared : String) : Issue :=
  { rule_id := rule.rule_id
    severity := rule.severity
    message := msgOr logic.message
      (optStr logic.target_segment ++ fmt02 logic.target_element ++ " count mismatch")
    segment_id := logic.target_segment
    line_number := some t.line
    element_position := some logic.target_element
    expected_value := some (toString sourceCount)
    actual_value := some declared }

/-- The invalid-count issue of `_validate_count_match`, emitted when the
declared value raises `ValueError` in `int()`. -/
def invalidCountIssue (rule : CrossRule) (logic : CrossLogic) (t : Seg)
    (declared : String) : Issue :=
  { rule_id := rule.rule_id
    severity := rule.severity
    message := optStr logic.target_segment ++ fmt02 logic.target_element ++
      " contains invalid count value"
    segment_id := logic.target_segment
    line_number := some t.line
    element_position := some logic.target_element
    actual_value := some declared }

/-- The issues `_validate_count_match` emits for one target occurrence. -/
def countMatchCheck (rule : CrossRule) (logic : CrossLogic) (sourceCount : Nat)
    (t : Seg) : List Issue :=
  if logic.target_element < t.elements.length then
    let declared := pyStrip (t.elements.getD logic.target_element "")
    match pyInt declared with
    | some n =>
      if n ≠ (sourceCount : Int) then [countMismatchIssue rule logic sourceCount t declared]
      else []
    | none => [invalidCountIssue rule logic t declared]
  else []

/-- Embedding of `_validate_count_match`: compare the count of source
segments against the integer declared in each target segment's element,
emitting a mismatch issue, or an invalid-count issue when `int()` raises. -/
def countMatchIssues (rule : CrossRule) (segments : List Seg) (logic : CrossLogic) :
    List Issue :=
  let sourceCount := (segments.filter (fun s => some s.segment_id == logic.source_segment)).length
  let targets := segments.filter (fun s => some s.segment_id == logic.target_segment)
  targets.foldl (fun acc t => acc ++ countMatchCheck rule logic sourceCount t) []

/-- The issues of one `match_pairs` entry over already-selected occurrence
lists: `zip` pairs the occurrences positionally, out-of-range element
positions are skipped, and differing stripped values emit one issue. -/
def pairIssues (rule : CrossRule) (pr : MatchPair) (l1 l2 : List Seg) : List Issue :=
  (l1.zip l2).foldl
    (fun acc s12 =>
      if pr.element_1 < s12.1.elements.length && pr.element_2 < s12.2.elements.length then
        let v1 := pyStrip (s12.1.elements.getD pr.element_1 "")
        let v2 := pyStrip (s12.2.elements.getD pr.element_2 "")
        if v1 ≠ v2 then
          acc ++ [{ rule_id := rule.rule_id
                    severity := rule.severity
                    message := optStr pr.segment_1 ++ fmt02 pr.element_1 ++ " and " ++
                      optStr pr.segment_2 ++ fmt02 pr.element_2 ++ " must match"
                    segment_id := pr.segment_2
                    line_number := some s12.2.line
                    element_position := some pr.element_2
                    expected_value := some v1
                    actual_value := some v2 }]
        else acc
      else acc)
    []

/-- Embedding of `_validate_element_match`. -/
def elementMatchIssues (rule : CrossRule) (segments : List Seg) (logic : CrossLogic) :
    List Issue :=
  logic.match_pairs.foldl
    (fun acc pr =>
      acc ++ pairIssues rule pr
        (segments.filter (fun s => some s.segment_id == pr.segment_1))
        (segments.filter (fun s => some s.segment_id == pr.segment_2)))
    []

/-- Embedding of `_validate_element_value_exists`. -/
def elementValueExistsIssues (rule : CrossRule) (segments : List Seg)
    (logic : CrossLogic) : List Issue :=
  let found := segments.any fun s =>
    some s.segment_id == logic.segment_id &&
      logic.element_position < s.elements.length &&
      some (pyStrip (s.elements.getD logic.element_position "")) == logic.required_value
  if found then []
  else
    [{ rule_id := rule.rule_id
       severity := rule.severity
       message := msgOr logic.message
         ("No " ++ optStr logic.segment_id ++ " segment with " ++ optStr logic.segment_id ++
           fmt02 logic.element_position ++ "=" ++ optStr logic.required_value ++ " found")
       segment_id := logic.segment_id
       expected_value := logic.required_value }]

/-- Embedding of `CrossSegmentValidator.validate`: dispatch on the
`validation_logic` type tag (unknown tags are ignored). -/
def crossSegmentValidate (doc : ParsedEDI) (rules : List CrossRule) : List Issue :=
  rules.foldl
    (fun acc rule =>
      let logic := rule.validation_logic
      if logic.type = "count_match" then acc ++ countMatchIssues rule doc.segments logic
      else if logic.type = "element_match" then acc ++ elementMatchIssues rule doc.segments logic
      else if logic.type = "element_value_exists" then
        acc ++ elementValueExistsIssues rule doc.segments logic
      else acc)
    []

/-! ## Orchestration (`src/validator/validation_engine.py`)

A category evaluator is modelled as a function returning the issues it
appended to the shared collector before finishing, together with
`Option String`: `none` for a normal return and `some msg` for a raised
exception (issues appended before the raise stay in the collector, exactly
as with the Python `try` around `validator.validate`). -/

/-- A category evaluator's observable behaviour, issues plus a possible
exception. -/
def EvalFun (ρ : Type) : Type :=
  ParsedEDI → List ρ → List Issue × Option String

/-- The one ERROR-severity system issue `_validate_category` adds when a
category evaluator raises. -/
def systemIssue (categoryName : String) (exc : String) : Issue :=
  { rule_id := "SYSTEM_ERROR"
    severity := "ERROR"
    message := "System error during " ++ categoryName ++ " validation: " ++ exc }

/-- Embedding of `ValidationEngine._validate_category`: an empty rule list
is skipped; otherwise the evaluator's issues are collected and a raised
exception is converted into exactly one system issue. -/
def runCategory {ρ : Type} (ev : EvalFun ρ) (doc : ParsedEDI) (rules : List ρ)
    (categoryName : String) (c : ErrorCollector) : ErrorCollector :=
  if rules.isEmpty then c
  else
    let r := ev doc rules
    let c1 := r.1.foldl ErrorCollector.addError c
    match r.2 with
    | none => c1
    | some e => c1.addError (systemIssue categoryName e)

/-- The result of a validation run (the Python object also stores a
wall-clock duration and timestamp, modelled by an inert `Nat` field). -/
structure ValidationResult (δ ρ : Type) where
  error_collector : ErrorCollector
  parsed_edi : δ
  rules : ρ
  validation_time : Nat := 0

namespace ValidationResult

/-- Embedding of `ValidationResult.is_compliant`: no ERROR-level
violations. -/
def is_compliant {δ ρ : Type} (r : ValidationResult δ ρ) : Bool :=
  !r.error_collector.has_errors

/-- Embedding of `ValidationResult.error_count`. -/
def error_count {δ ρ : Type} (r : ValidationResult δ ρ) : Nat :=
  r.error_collector.errors.length

/-- Embedding of `ValidationResult.warning_count`. -/
def warning_count {δ ρ : Type} (r : ValidationResult δ ρ) : Nat :=
  r.error_collector.warnings.length

end ValidationResult

/-- Embedding of `ValidationEngine.validate`: the four categories run in
the fixed order required → element → conditional → cross-segment over one
shared collector, and a `ValidationResult` is always returned.  The four
evaluators are parameters so that runs in which one of them raises can be
stated. -/
def validateWith {ρ1 ρ2 ρ3 ρ4 : Type}
    (ev1 : EvalFun ρ1) (ev2 : EvalFun ρ2) (ev3 : EvalFun ρ3) (ev4 : EvalFun ρ4)
    (doc : ParsedEDI) (rls : List ρ1 × List ρ2 × List ρ3 × List ρ4) :
    ValidationResult ParsedEDI (List ρ1 × List ρ2 × List ρ3 × List ρ4) :=
  let c := ({} : ErrorCollector)
  let c := runCategory ev1 doc rls.1 "Required Segments" c
  let c := runCategory ev2 doc rls.2.1 "Element Rules" c
  let c := runCategory ev3 doc rls.2.2.1 "Conditional Rules" c
  let c := runCategory ev4 doc rls.2.2.2 "Cross-Segment Rules" c
  { error_collector := c, parsed_edi := doc, rules := rls }

/-- A pure evaluator (one that never raises) as an `EvalFun`. -/
def pureEval {ρ : Type} (f : ParsedEDI → List ρ → List Issue) : EvalFun ρ :=
  fun doc rules => (f doc rules, none)

/-! ## Theorems -/

/-- Adding an issue whose severity is not ERROR leaves the error list of the
collector untouched. -/
theorem addError_errors_of_not_error (c : ErrorCollector) (i : Issue)
    (h : ErrorCollector.pyUpper i.severity ≠ "ERROR") :
    (c.addError i).errors = c.errors := by
  simp only [ErrorCollector.addError, if_neg h]
  split <;> rfl

/-- Folding any number of WARNING/INFO issues into a collector leaves its
error list untouched. -/
theorem foldl_addError_errors (issues : List Issue) :
    ∀ c : ErrorCollector,
      (∀ i ∈ issues, ErrorCollector.pyUpper i.severity = "WARNING" ∨ ErrorCollector.pyUpper i.severity = "INFO") →
      (issues.foldl ErrorCollector.addError c).errors = c.errors := by
  induction issues with
  | nil => intro c _; rfl
  | cons i rest ih =>
    intro c h
    have hi := h i (by simp)
    have hne : ErrorCollector.pyUpper i.severity ≠ "ERROR" := by
      rcases hi with h1 | h1 <;> rw [h1] <;> decide
    rw [List.foldl_cons, ih _ (fun j hj => h j (by simp [hj])),
      addError_errors_of_not_error _ _ hne]

/-- C1.  A `ValidationResult` is compliant exactly when its error count is
zero, and both values are invariant under adding any number of WARNING- or
INFO-severity issues to the collector. -/
theorem claim_C1 {δ ρ : Type} (c : ErrorCollector) (d : δ) (rl : ρ) (t : Nat)
    (issues : List Issue)
    (h : ∀ i ∈ issues, ErrorCollector.pyUpper i.severity = "WARNING" ∨ ErrorCollector.pyUpper i.severity = "INFO") :
    ((ValidationResult.mk c d rl t).is_compliant = true ↔
      (ValidationResult.mk c d rl t).error_count = 0) ∧
    (ValidationResult.mk (issues.foldl ErrorCollector.addError c) d rl t).is_compliant =
      (ValidationResult.mk c d rl t).is_compliant ∧
    (ValidationResult.mk (issues.foldl ErrorCollector.addError c) d rl t).error_count =
      (ValidationResult.mk c d rl t).error_count := by
  have he := foldl_addError_errors issues c h
  refine ⟨?_, ?_, ?_⟩
  · simp [ValidationResult.is_compliant, ValidationResult.error_count,
      ErrorCollector.has_errors, Nat.pos_iff_ne_zero]
  · simp [ValidationResult.is_compliant, ErrorCollector.has_errors, he]
  · simp [ValidationResult.error_count, he]

/-- Witness for C1 at a collector that already holds one error, adding one
WARNING and one lower-cased info issue. -/
theorem claim_C1_witness :
    (∀ i ∈ [({ rule_id := "W1", severity := "WARNING", message := "w" } : Issue),
             ({ rule_id := "I1", severity := "info", message := "i" } : Issue)],
        ErrorCollector.pyUpper i.severity = "WARNING" ∨ ErrorCollector.pyUpper i.severity = "INFO") ∧
    (((ValidationResult.mk
        (ErrorCollector.mk [{ rule_id := "E1", severity := "ERROR", message := "e" }] [] [])
        (0 : Nat) (0 : Nat) 0).is_compliant = true ↔
      (ValidationResult.mk
        (ErrorCollector.mk [{ rule_id := "E1", severity := "ERROR", message := "e" }] [] [])
        (0 : Nat) (0 : Nat) 0).error_count = 0) ∧
     (ValidationResult.mk
        ([({ rule_id := "W1", severity := "WARNING", message := "w" } : Issue),
          ({ rule_id := "I1", severity := "info", message := "i" } : Issue)].foldl
          ErrorCollector.addError
          (ErrorCollector.mk [{ rule_id := "E1", severity := "ERROR", message := "e" }] [] []))
        (0 : Nat) (0 : Nat) 0).is_compliant =
      (ValidationResult.mk
        (ErrorCollector.mk [{ rule_id := "E1", severity := "ERROR", message := "e" }] [] [])
        (0 : Nat) (0 : Nat) 0).is_compliant ∧
     (ValidationResult.mk
        ([({ rule_id := "W1", severity := "WARNING", message := "w" } : Issue),
          ({ rule_id := "I1", severity := "info", message := "i" } : Issue)].foldl
          ErrorCollector.addError
          (ErrorCollector.mk [{ rule_id := "E1", severity := "ERROR", message := "e" }] [] []))
        (0 : Nat) (0 : Nat) 0).error_count =
      (ValidationResult.mk
        (ErrorCollector.mk [{ rule_id := "E1", severity := "ERROR", message := "e" }] [] [])
        (0 : Nat) (0 : Nat) 0).error_count) :=
  ⟨by decide, claim_C1 _ _ _ _ _ (by decide)⟩

/-- Splitting never yields an empty part list. -/
theorem splitOnChar_ne_nil (sep : Char) (s : List Char) : splitOnChar sep s ≠ [] := by
  induction s with
  | nil => simp [splitOnChar]
  | cons c rest ih =>
    rw [splitOnChar]
    split
    · simp
    · split <;> simp

/-- Re-joining the split parts with the separator reproduces the input:
splitting loses no character and keeps every field at its position. -/
theorem joinSep_splitOnChar (sep : Char) (s : List Char) :
    joinSep sep (splitOnChar sep s) = s := by
  induction s with
  | nil => rfl
  | cons c rest ih =>
    rw [splitOnChar]
    by_cases h : c = sep
    · rw [if_pos h]
      rcases hr : splitOnChar sep rest with _ | ⟨h1, t1⟩
      · exact absurd hr (splitOnChar_ne_nil sep rest)
      · rw [hr] at ih
        show [] ++ sep :: joinSep sep (h1 :: t1) = c :: rest
        rw [ih, h]
        rfl
    · rw [if_neg h]
      rcases hr : splitOnChar sep rest with _ | ⟨h1, t1⟩
      · exact absurd hr (splitOnChar_ne_nil sep rest)
      · rw [hr] at ih
        rcases t1 with _ | ⟨h2, t2⟩
        · show c :: h1 = c :: rest
          rw [← ih]
          rfl
        · show (c :: h1) ++ sep :: joinSep sep (h2 :: t2) = c :: rest
          rw [← ih]
          rfl

/-- The number of split parts is the separator count plus one. -/
theorem length_splitOnChar (sep : Char) (s : List Char) :
    (splitOnChar sep s).length = s.count sep + 1 := by
  induction s with
  | nil => rfl
  | cons c rest ih =>
    rw [splitOnChar]
    by_cases h : c = sep
    · rw [if_pos h]
      simp [List.count_cons, h, ih]
    · rw [if_neg h]
      rcases hr : splitOnChar sep rest with _ | ⟨h1, t1⟩
      · exact absurd hr (splitOnChar_ne_nil sep rest)
      · rw [hr] at ih
        simp only [List.length_cons] at ih
        simp [List.count_cons, h, ih]

/-- No split part contains the separator. -/
theorem splitOnChar_no_sep (sep : Char) (s : List Char) :
    ∀ p ∈ splitOnChar sep s, sep ∉ p := by
  induction s with
  | nil => simp [splitOnChar]
  | cons c rest ih =>
    rw [splitOnChar]
    by_cases h : c = sep
    · rw [if_pos h]
      intro p hp
      simp only [List.mem_cons] at hp
      rcases hp with rfl | hp
      · simp
      · exact ih p hp
    · rw [if_neg h]
      rcases hr : splitOnChar sep rest with _ | ⟨h1, t1⟩
      · exact absurd hr (splitOnChar_ne_nil sep rest)
      · intro p hp
        simp only [List.mem_cons] at hp
        rcases hp with rfl | hp
        · have hh1 : sep ∉ h1 := ih h1 (by rw [hr]; simp)
          simp only [List.mem_cons]
          rintro (rfl | hm)
          · exact h rfl
          · exact hh1 hm
        · exact ih p (by rw [hr]; simp [hp])

/-- C5.  Element splitting preserves element count and position and retains
empty elements: the sample segment splits into exactly six elements with the
fifth empty, re-joining the parts with the separator reproduces any input
verbatim, the part count is the separator count plus one, and no part
contains the separator (so the i-th part is exactly the i-th
separator-delimited field). -/
theorem claim_C5 :
    (split_elements (("BEG*00*NE*PO1**20231215").toList) =
        [("BEG").toList, ("00").toList, ("NE").toList, ("PO1").toList, [],
          ("20231215").toList] ∧
      (split_elements (("BEG*00*NE*PO1**20231215").toList)).length = 6 ∧
      (split_elements (("BEG*00*NE*PO1**20231215").toList)).getD 4 (("x").toList) = []) ∧
    ∀ (s : List Char) (sep : Char),
      joinSep sep (split_elements s sep) = s ∧
      (split_elements s sep).length = s.count sep + 1 ∧
      (split_elements s sep).all (fun p => decide (sep ∉ p)) = true := by
  refine ⟨⟨by decide, by decide, by decide⟩, fun s sep => ⟨?_, ?_, ?_⟩⟩
  · exact joinSep_splitOnChar sep s
  · exact length_splitOnChar sep s
  · rw [List.all_eq_true]
    intro p hp
    simpa using splitOnChar_no_sep sep s p hp

/-- C9.  A required-segment rule with minimum 1 and no maximum, applied to a
document with no matching segments, produces exactly one issue, whose
`actual_value` is the string zero and whose expected value reports the
minimum. -/
theorem claim_C9 (doc : ParsedEDI) (r : ReqRule)
    (hmin : r.min_occurrences = 1) (hmax : r.max_occurrences = none)
    (hzero : findMatchingSegments doc.segments r.segment_id r.element_filters = []) :
    requiredSegmentValidate doc [r] =
      [{ rule_id := r.rule_id
         severity := r.severity
         message := r.description ++ " (found 0, expected at least 1)"
         segment_id := r.segment_id
         expected_value := some ("min 1")
         actual_value := some ("0") }] := by
  unfold requiredSegmentValidate
  simp only [List.foldl_cons, List.foldl_nil, List.nil_append]
  unfold requiredSegmentIssues
  rw [hzero, hmin, hmax]
  simp
  refine ⟨?_, rfl, rfl⟩
  simp only [String.append_assoc]
  congr 1

/-- Witness for C9: an empty document against a concrete min-1 rule. -/
theorem claim_C9_witness :
    (({ rule_id := "REQ_N1", severity := "ERROR", description := "N1 required",
        segment_id := some ("N1"), min_occurrences := 1 } : ReqRule).min_occurrences = 1) ∧
    requiredSegmentValidate (ParsedEDI.mk [])
      [{ rule_id := "REQ_N1", severity := "ERROR", description := "N1 required",
         segment_id := some ("N1"), min_occurrences := 1 }] =
      [{ rule_id := "REQ_N1"
         severity := "ERROR"
         message := "N1 required (found 0, expected at least 1)"
         segment_id := some ("N1")
         expected_value := some ("min 1")
         actual_value := some ("0") }] :=
  ⟨rfl, claim_C9 _ _ rfl rfl rfl⟩

/-- Zipping only consumes the common prefix of the two lists. -/
theorem zip_take_take {α β : Type} :
    ∀ (l1 : List α) (l2 : List β),
      l1.zip l2 = (l1.take l2.length).zip (l2.take l1.length) := by
  intro l1
  induction l1 with
  | nil => intro l2; simp
  | cons a t1 ih =>
    intro l2
    cases l2 with
    | nil => simp
    | cons b t2 =>
      simp only [List.zip_cons_cons, List.length_cons, List.take_succ_cons]
      rw [← ih t2]

/-- C10.  Element-match occurrences are paired strictly positionally up to
the shorter occurrence list — trailing unpaired occurrences are never
examined — and a pair in which either compared element position is out of
range is silently skipped, producing no issue. -/
theorem claim_C10 (rule : CrossRule) (pr : MatchPair) (l1 l2 : List Seg) (s1 s2 : Seg) :
    pairIssues rule pr l1 l2 =
      pairIssues rule pr (l1.take l2.length) (l2.take l1.length) ∧
    ((s1.elements.length ≤ pr.element_1 ∨ s2.elements.length ≤ pr.element_2) →
      pairIssues rule pr (s1 :: l1) (s2 :: l2) = pairIssues rule pr l1 l2) := by
  constructor
  · unfold pairIssues
    rw [← zip_take_take]
  · intro h
    simp only [pairIssues, List.zip_cons_cons, List.foldl_cons]
    rcases h with h | h <;> simp [Nat.not_lt.mpr h]

/-- Witness for C10: a pair whose first compared position is out of range
contributes nothing. -/
theorem claim_C10_witness :
    ((Seg.mk 1 "AAA" [("AAA")]).elements.length ≤
      (MatchPair.mk (some ("AAA")) 5 (some ("BBB")) 0).element_1) ∧
    pairIssues (CrossRule.mk "X" "ERROR" { type := ("element_match") })
      (MatchPair.mk (some ("AAA")) 5 (some ("BBB")) 0)
      [Seg.mk 1 "AAA" [("AAA")], Seg.mk 3 "AAA" [("AAA")]]
      [Seg.mk 2 "BBB" [("BBB")], Seg.mk 4 "BBB" [("BBB")]] =
    pairIssues (CrossRule.mk "X" "ERROR" { type := ("element_match") })
      (MatchPair.mk (some ("AAA")) 5 (some ("BBB")) 0)
      [Seg.mk 3 "AAA" [("AAA")]] [Seg.mk 4 "BBB" [("BBB")]] :=
  ⟨by decide,
    (claim_C10 (CrossRule.mk "X" "ERROR" { type := ("element_match") })
      (MatchPair.mk (some ("AAA")) 5 (some ("BBB")) 0)
      [Seg.mk 3 "AAA" [("AAA")]] [Seg.mk 4 "BBB" [("BBB")]]
      (Seg.mk 1 "AAA" [("AAA")]) (Seg.mk 2 "BBB" [("BBB")])).2 (Or.inl (by decide))⟩

/-- A left fold that only appends is the concatenation of the per-element
emissions. -/
theorem foldl_append_eq_join {σ α : Type} (k : α → List σ) :
    ∀ (L : List α) (acc : List σ),
      L.foldl (fun acc x => acc ++ k x) acc = acc ++ (L.map k).flatten := by
  intro L
  induction L with
  | nil => intro acc; simp
  | cons x t ih =>
    intro acc
    rw [List.foldl_cons, ih]
    simp

/-- C8.  On a document with two detail segments and one summary segment
declaring the count three, the count-match evaluator emits exactly one
mismatch issue with expected value two and actual value three; and whenever
a target occurrence's declared value is not parseable as an integer, an
invalid-count issue for that occurrence is emitted (a total function: no
exception propagates). -/
theorem claim_C8 :
    (crossSegmentValidate
        (ParsedEDI.mk
          [Seg.mk 1 "PO1" [("PO1"), ("1")], Seg.mk 2 "PO1" [("PO1"), ("2")],
            Seg.mk 3 "CTT" [("CTT"), ("3")]])
        [CrossRule.mk "CS1" "ERROR"
          { type := ("count_match"), source_segment := some ("PO1"),
            target_segment := some ("CTT"), target_element := 1 }] =
      [{ rule_id := "CS1", severity := "ERROR", message := "CTT01 count mismatch",
         segment_id := some ("CTT"), line_number := some 3, element_position := some 1,
         expected_value := some ("2"), actual_value := some ("3") }]) ∧
    (∀ (rule : CrossRule) (segments : List Seg) (logic : CrossLogic) (t : Seg),
      t ∈ segments → some t.segment_id = logic.target_segment →
      logic.target_element < t.elements.length →
      pyInt (pyStrip (t.elements.getD logic.target_element "")) = none →
      invalidCountIssue rule logic t (pyStrip (t.elements.getD logic.target_element "")) ∈
        countMatchIssues rule segments logic) := by
  constructor
  · decide
  · intro rule segments logic t ht hseg hlt hnone
    unfold countMatchIssues
    rw [foldl_append_eq_join]
    have htar : t ∈ segments.filter (fun s => some s.segment_id == logic.target_segment) := by
      rw [List.mem_filter]
      exact ⟨ht, by simp [hseg]⟩
    have hcheck :
        countMatchCheck rule logic
            (segments.filter (fun s => some s.segment_id == logic.source_segment)).length t =
          [invalidCountIssue rule logic t (pyStrip (t.elements.getD logic.target_element ""))] := by
      unfold countMatchCheck
      rw [if_pos hlt]
      simp only [hnone]
    refine List.mem_flatten.mpr ⟨_, List.mem_map_of_mem _ htar, ?_⟩
    rw [hcheck]
    simp

/-- Witness for C8's invalid-count clause: a summary segment declaring a
non-numeric count yields the invalid-count issue. -/
theorem claim_C8_witness :
    (pyInt (pyStrip ((Seg.mk 1 "CTT" [("CTT"), ("XX")]).elements.getD 1 "")) = none) ∧
    invalidCountIssue (CrossRule.mk "CS2" "ERROR" { type := ("count_match") })
        { type := ("count_match"), source_segment := some ("PO1"),
          target_segment := some ("CTT"), target_element := 1 }
        (Seg.mk 1 "CTT" [("CTT"), ("XX")])
        (pyStrip ((Seg.mk 1 "CTT" [("CTT"), ("XX")]).elements.getD 1 "")) ∈
      countMatchIssues (CrossRule.mk "CS2" "ERROR" { type := ("count_match") })
        [Seg.mk 1 "CTT" [("CTT"), ("XX")]]
        { type := ("count_match"), source_segment := some ("PO1"),
          target_segment := some ("CTT"), target_element := 1 } :=
  ⟨by decide,
    claim_C8.2 (CrossRule.mk "CS2" "ERROR" { type := ("count_match") })
      [Seg.mk 1 "CTT" [("CTT"), ("XX")]]
      { type := ("count_match"), source_segment := some ("PO1"),
        target_segment := some ("CTT"), target_element := 1 }
      (Seg.mk 1 "CTT" [("CTT"), ("XX")])
      (by decide) (by decide) (by decide) (by decide)⟩

/-- Stripping an all-whitespace text leaves nothing. -/
theorem pstrip_nil_of_all_ws (l : List Char) (h : l.all isPyWS = true) :
    pstrip l = [] := by
  unfold pstrip
  rw [List.all_eq_true] at h
  have hd : l.dropWhile isPyWS = [] := by
    rw [List.dropWhile_eq_nil_iff]
    intro x hx
    simpa using h x hx
  rw [hd]
  rfl

/-- A text that strips to nothing normalises to nothing. -/
theorem normalize_of_pstrip_nil (text : List Char) (h : pstrip text = []) :
    normalize_edi_text text = [] := by
  unfold normalize_edi_text
  rw [h]
  rfl

/-- A text that strips to nothing yields zero segments after normalising. -/
theorem split_segments_norm_nil (text : List Char) (h : pstrip text = []) :
    split_segments (normalize_edi_text text) = [] := by
  rw [normalize_of_pstrip_nil text h]
  rfl

/-- C4 counterexample.  The input `ABC` contains no segment-terminator
character, yet `parse_text` succeeds with one parsed segment instead of
raising an empty-input error. -/
theorem claim_C4_counterexample :
    parse_text (("ABC").toList) = .ok [Seg.mk 1 "ABC" [("ABC")]] ∧
    (("ABC").toList.contains '~') = false :=
  ⟨rfl, rfl⟩

/-- C4 (amended).  Whitespace-only input fails with the empty-input error,
and in general parsing fails exactly when the normalized text yields zero
segments (an input without a terminator but with non-whitespace content
yields one segment and parses successfully). -/
theorem claim_C4 :
    ∀ text : List Char,
      (text.all isPyWS = true → parse_text text = .error "EDI text is empty") ∧
      ((∃ e, parse_text text = .error e) ↔
        split_segments (normalize_edi_text text) = []) := by
  intro text
  constructor
  · intro h
    have hs : pstrip text = [] := pstrip_nil_of_all_ws text h
    simp [parse_text, hs]
  · constructor
    · rintro ⟨e, he⟩
      by_cases h1 : (pstrip text).isEmpty
      · exact split_segments_norm_nil text (List.isEmpty_iff.mp h1)
      · rw [parse_text, if_neg h1] at he
        by_cases h2 : (split_segments (normalize_edi_text text)).isEmpty
        · exact List.isEmpty_iff.mp h2
        · simp only [h2, if_neg] at he
          exact absurd he (by simp)
    · intro h
      rw [parse_text]
      by_cases h1 : (pstrip text).isEmpty
      · rw [if_pos h1]
        exact ⟨_, rfl⟩
      · rw [if_neg h1]
        simp only [h, List.isEmpty_nil, if_pos]
        exact ⟨_, rfl⟩

/-- Witness for C4 at a whitespace-only input. -/
theorem claim_C4_witness :
    ((("  \n\t ").toList.all isPyWS) = true) ∧
    parse_text (("  \n\t ").toList) = .error "EDI text is empty" :=
  ⟨by decide, (claim_C4 (("  \n\t ").toList)).1 (by decide)⟩

/-- The window accumulator of `_check_then_clause`: with at most ten
segments accumulated, the loop gathers the next `11 - acc.length` segments
that follow the trigger line, stopping early at the loop boundary. -/
theorem loopWindowGo_eq (t : Nat) (w : String) :
    ∀ (l : List Seg) (acc : List Seg), acc.length ≤ 10 →
      loopWindowGo t w l acc =
        acc ++ ((l.filter (fun s => decide (t < s.line))).takeWhile
          (fun s => s.segment_id != w)).take (11 - acc.length) := by
  intro l
  induction l with
  | nil => intro acc _; simp [loopWindowGo]
  | cons s rest ih =>
    intro acc h
    by_cases hline : t < s.line
    · by_cases hw : s.segment_id = w
      · simp only [loopWindowGo, if_pos hline, if_pos hw]
        simp [hline, List.takeWhile_cons, hw]
      · by_cases hlen : 10 < (acc ++ [s]).length
        · simp only [loopWindowGo, if_pos hline, if_neg hw, if_pos hlen]
          have h10 : acc.length = 10 := by
            simp only [List.length_append, List.length_cons, List.length_nil] at hlen
            omega
          have harith : 11 - acc.length = 1 := by omega
          simp [hline, List.takeWhile_cons, hw, harith]
        · simp only [loopWindowGo, if_pos hline, if_neg hw, if_neg hlen]
          rw [ih _ (by simp only [List.length_append, List.length_cons,
            List.length_nil] at hlen ⊢; omega)]
          have harith : 11 - acc.length = (11 - (acc ++ [s]).length) + 1 := by
            simp only [List.length_append, List.length_cons, List.length_nil]
            simp only [List.length_append, List.length_cons, List.length_nil] at hlen
            omega
          simp [hline, List.takeWhile_cons, hw, harith, List.take_succ_cons]
    · simp only [loopWindowGo, if_neg hline]
      rw [ih _ h]
      simp [hline]

/-- C6 counterexample.  With a boundary-scoped conditional rule, a required
segment that is the eleventh segment after the trigger (beyond the tenth) is
still counted as satisfying the obligation: the validator emits no issue,
although none of the first ten following segments carries the required id. -/
theorem claim_C6_counterexample :
    conditionalValidate
        (ParsedEDI.mk
          [Seg.mk 1 "PO1" [("PO1"), ("X")],
            Seg.mk 2 "AA" [("AA")], Seg.mk 3 "AA" [("AA")], Seg.mk 4 "AA" [("AA")],
            Seg.mk 5 "AA" [("AA")], Seg.mk 6 "AA" [("AA")], Seg.mk 7 "AA" [("AA")],
            Seg.mk 8 "AA" [("AA")], Seg.mk 9 "AA" [("AA")], Seg.mk 10 "AA" [("AA")],
            Seg.mk 11 "AA" [("AA")], Seg.mk 12 "ZZ" [("ZZ")]])
        [CondRule.mk "CR1" "ERROR"
          (Condition.mk (some ("PO1")) (some 1) none true)
          (ThenClause.mk [("ZZ")] (some ("LP")) none none)] = [] ∧
    ((([Seg.mk 1 "PO1" [("PO1"), ("X")],
        Seg.mk 2 "AA" [("AA")], Seg.mk 3 "AA" [("AA")], Seg.mk 4 "AA" [("AA")],
        Seg.mk 5 "AA" [("AA")], Seg.mk 6 "AA" [("AA")], Seg.mk 7 "AA" [("AA")],
        Seg.mk 8 "AA" [("AA")], Seg.mk 9 "AA" [("AA")], Seg.mk 10 "AA" [("AA")],
        Seg.mk 11 "AA" [("AA")], Seg.mk 12 "ZZ" [("ZZ")]].filter
          (fun s => decide (1 < s.line))).take 10).all
        (fun s => s.segment_id != "ZZ")) = true ∧
    (([Seg.mk 1 "PO1" [("PO1"), ("X")],
        Seg.mk 2 "AA" [("AA")], Seg.mk 3 "AA" [("AA")], Seg.mk 4 "AA" [("AA")],
        Seg.mk 5 "AA" [("AA")], Seg.mk 6 "AA" [("AA")], Seg.mk 7 "AA" [("AA")],
        Seg.mk 8 "AA" [("AA")], Seg.mk 9 "AA" [("AA")], Seg.mk 10 "AA" [("AA")],
        Seg.mk 11 "AA" [("AA")], Seg.mk 12 "ZZ" [("ZZ")]].filter
          (fun s => decide (1 < s.line))).getD 10 (Seg.mk 0 "" [])).segment_id = "ZZ" := by
  refine ⟨by decide, by decide, by decide⟩

/-- C6 (amended).  The forward window scanned for a boundary-scoped
conditional obligation is exactly the first eleven segments after the
trigger line and before the next boundary occurrence: the Python loop
appends before testing its size bound of ten, so an eleventh segment is
admitted, and no segment beyond the eleventh is ever counted. -/
theorem claim_C6 :
    ∀ (allSegments : List Seg) (triggerLine : Nat) (w : String),
      loopWindow allSegments triggerLine w =
        ((allSegments.filter (fun s => decide (triggerLine < s.line))).takeWhile
          (fun s => s.segment_id != w)).take 11 := by
  intro a t w
  unfold loopWindow
  rw [loopWindowGo_eq t w a [] (by simp)]
  simp

/-- When a category evaluator raises after appending some issues, the
category boundary keeps those issues and adds exactly one system issue. -/
theorem runCategory_raises {ρ : Type} (ev : EvalFun ρ) (doc : ParsedEDI)
    (rules : List ρ) (cat : String) (c : ErrorCollector) (issues : List Issue)
    (e : String) (hne : rules ≠ []) (hev : ev doc rules = (issues, some e)) :
    runCategory ev doc rules cat c =
      (issues.foldl ErrorCollector.addError c).addError (systemIssue cat e) := by
  unfold runCategory
  rw [if_neg (by simp [List.isEmpty_iff, hne])]
  rw [hev]

/-- C7.  A category whose evaluator raises is caught at the orchestrator
boundary: the issues it had already emitted are kept, exactly one
ERROR-severity system issue naming the category is added, and — as the
second conjunct shows for the conditional category — the remaining
categories still run and `validate` still returns a `ValidationResult`. -/
theorem claim_C7 :
    (∀ (ρ : Type) (ev : EvalFun ρ) (doc : ParsedEDI) (rules : List ρ)
        (cat : String) (c : ErrorCollector) (issues : List Issue) (e : String),
      rules ≠ [] → ev doc rules = (issues, some e) →
      runCategory ev doc rules cat c =
        (issues.foldl ErrorCollector.addError c).addError (systemIssue cat e) ∧
      (systemIssue cat e).severity = "ERROR" ∧
      (systemIssue cat e).message = "System error during " ++ cat ++ " validation: " ++ e) ∧
    (∀ (ρ1 ρ2 ρ3 ρ4 : Type) (ev1 : EvalFun ρ1) (ev2 : EvalFun ρ2) (ev3 : EvalFun ρ3)
        (ev4 : EvalFun ρ4) (doc : ParsedEDI)
        (rls : List ρ1 × List ρ2 × List ρ3 × List ρ4) (issues : List Issue) (e : String),
      rls.2.2.1 ≠ [] → ev3 doc rls.2.2.1 = (issues, some e) →
      validateWith ev1 ev2 ev3 ev4 doc rls =
        { error_collector :=
            runCategory ev4 doc rls.2.2.2 "Cross-Segment Rules"
              ((issues.foldl ErrorCollector.addError
                (runCategory ev2 doc rls.2.1 "Element Rules"
                  (runCategory ev1 doc rls.1 "Required Segments" {}))).addError
                (systemIssue "Conditional Rules" e))
          parsed_edi := doc
          rules := rls }) := by
  constructor
  · intro ρ ev doc rules cat c issues e hne hev
    exact ⟨runCategory_raises ev doc rules cat c issues e hne hev, rfl, rfl⟩
  · intro ρ1 ρ2 ρ3 ρ4 ev1 ev2 ev3 ev4 doc rls issues e hne hev
    show ({ error_collector :=
                runCategory ev4 doc rls.2.2.2 "Cross-Segment Rules"
                  (runCategory ev3 doc rls.2.2.1 "Conditional Rules"
                    (runCategory ev2 doc rls.2.1 "Element Rules"
                      (runCategory ev1 doc rls.1 "Required Segments" {}))),
            parsed_edi := doc, rules := rls } :
        ValidationResult ParsedEDI (List ρ1 × List ρ2 × List ρ3 × List ρ4)) = _
    rw [runCategory_raises ev3 doc rls.2.2.1 "Conditional Rules" _ issues e hne hev]

/-- Witness for C7: an evaluator that raises at once on a non-empty rule
list adds exactly the one system issue. -/
theorem claim_C7_witness :
    (([0] : List Nat) ≠ []) ∧
    runCategory (fun _ _ => ([], some ("boom"))) (ParsedEDI.mk []) ([0] : List Nat)
        "Conditional Rules" {} =
      (([] : List Issue).foldl ErrorCollector.addError {}).addError
        (systemIssue "Conditional Rules" "boom") :=
  ⟨by simp,
    (claim_C7.1 Nat (fun _ _ => ([], some ("boom"))) (ParsedEDI.mk []) [0]
      "Conditional Rules" {} [] "boom" (by simp) rfl).1⟩

/-- Lookup after a dict update. -/
theorem lookupKey_dictInsert {β : Type} (m : List (String × β)) (k k2 : String) (v : β) :
    lookupKey (dictInsert m k v) k2 = if k = k2 then some v else lookupKey m k2 := by
  induction m with
  | nil => simp [dictInsert, lookupKey]
  | cons kv rest ih =>
    obtain ⟨k1, v1⟩ := kv
    by_cases h1 : k1 = k
    · subst h1
      simp only [dictInsert, if_pos rfl]
      by_cases h2 : k1 = k2
      · subst h2; simp [lookupKey]
      · simp [lookupKey, h2]
    · simp only [dictInsert, if_neg h1]
      by_cases h2 : k1 = k2
      · subst h2
        have hk : ¬k = k1 := fun hh => h1 hh.symm
        simp [lookupKey, hk]
      · simp [lookupKey, h2, ih]

/-- Updating the same key twice keeps only the second value. -/
theorem dictInsert_dictInsert_same {β : Type} (m : List (String × β)) (k : String) (v w : β) :
    dictInsert (dictInsert m k v) k w = dictInsert m k w := by
  induction m with
  | nil => simp [dictInsert]
  | cons kv rest ih =>
    obtain ⟨k1, v1⟩ := kv
    by_cases h1 : k1 = k
    · subst h1; simp [dictInsert]
    · simp [dictInsert, h1, ih]

/-- Updates at distinct keys commute when the first key is already present
(the in-place rewrite does not disturb where the second update lands). -/
theorem dictInsert_comm_of_mem {β : Type} (m : List (String × β)) (k k2 : String)
    (v w : β) (h : k ≠ k2) (hmem : lookupKey m k ≠ none) :
    dictInsert (dictInsert m k v) k2 w = dictInsert (dictInsert m k2 w) k v := by
  induction m with
  | nil => simp [lookupKey] at hmem
  | cons kv rest ih =>
    obtain ⟨k1, v1⟩ := kv
    by_cases h1 : k1 = k
    · subst h1
      have h2 : ¬k1 = k2 := h
      have h2b : ¬k2 = k1 := Ne.symm h
      simp [dictInsert, h2, h2b]
    · have hmem2 : lookupKey rest k ≠ none := by
        simpa [lookupKey, h1] using hmem
      by_cases h2 : k1 = k2
      · subst h2
        have hb : ¬k = k1 := fun hh => h1 hh.symm
        simp [dictInsert, h1, hb, h]
      · simp [dictInsert, h1, h2, ih hmem2]

/-- Rewriting a key with the value it already holds changes nothing. -/
theorem dictInsert_self {β : Type} (m : List (String × β)) (k : String) (v : β)
    (h : lookupKey m k = some v) :
    dictInsert m k v = m := by
  induction m with
  | nil => simp [lookupKey] at h
  | cons kv rest ih =>
    obtain ⟨k1, v1⟩ := kv
    by_cases h1 : k1 = k
    · subst h1
      simp [lookupKey] at h
      simp [dictInsert, h]
    · simp only [lookupKey, if_neg h1] at h
      simp [dictInsert, h1, ih h]

/-- A key that is absent looks up to `none`. -/
theorem lookupKey_none_iff {β : Type} (m : List (String × β)) (k : String) :
    lookupKey m k = none ↔ k ∉ m.map Prod.fst := by
  induction m with
  | nil => simp [lookupKey]
  | cons kv rest ih =>
    obtain ⟨k1, v1⟩ := kv
    by_cases h1 : k1 = k
    · subst h1; simp [lookupKey]
    · simp only [lookupKey, if_neg h1, List.map_cons, List.mem_cons, not_or]
      rw [ih]
      constructor
      · intro h; exact ⟨fun hh => h1 hh.symm, h⟩
      · intro h; exact h.2

/-- Updating an absent key appends the new entry at the end. -/
theorem dictInsert_append {β : Type} (m : List (String × β)) (k : String) (v : β)
    (h : lookupKey m k = none) :
    dictInsert m k v = m ++ [(k, v)] := by
  induction m with
  | nil => simp [dictInsert]
  | cons kv rest ih =>
    obtain ⟨k1, v1⟩ := kv
    by_cases h1 : k1 = k
    · subst h1; simp [lookupKey] at h
    · simp only [lookupKey, if_neg h1] at h
      simp [dictInsert, h1, ih h]

/-- Lookup distributes over append when the key misses the first part. -/
theorem lookupKey_append_none {β : Type} (m1 m2 : List (String × β)) (k : String)
    (h : lookupKey m1 k = none) :
    lookupKey (m1 ++ m2) k = lookupKey m2 k := by
  induction m1 with
  | nil => simp
  | cons kv rest ih =>
    obtain ⟨k1, v1⟩ := kv
    by_cases h1 : k1 = k
    · subst h1; simp [lookupKey] at h
    · simp only [lookupKey, if_neg h1] at h
      simp [lookupKey, h1, ih h]

/-- One step of the core/document tier loop. -/
theorem insertTier_cons {α : Type} (m : List (String × MRule α)) (r : MRule α)
    (rest : List (MRule α)) :
    insertTier m (r :: rest) = insertTier (insertRule m r) rest := rfl

/-- One step of the retailer tier loop. -/
theorem insertRetailerTier_cons {α : Type} (m : List (String × MRule α)) (r : MRule α)
    (rest : List (MRule α)) (dt : String) :
    insertRetailerTier m (r :: rest) dt =
      insertRetailerTier
        (if r.rule_id = "" then m
         else if r.applies_to_doc_types.isEmpty || r.applies_to_doc_types.contains dt then
           dictInsert m r.rule_id r
         else m)
        rest dt := rfl

/-- An empty retailer tier changes nothing. -/
theorem insertRetailerTier_nil {α : Type} (m : List (String × MRule α)) (dt : String) :
    insertRetailerTier m [] dt = m := rfl

/-- Entries of an updated dict are the update or an original entry. -/
theorem mem_dictInsert {β : Type} (m : List (String × β)) (k : String) (v : β)
    (kv : String × β) : kv ∈ dictInsert m k v → kv = (k, v) ∨ kv ∈ m := by
  induction m with
  | nil =>
    intro h
    simpa [dictInsert] using h
  | cons kv1 rest ih =>
    obtain ⟨k1, v1⟩ := kv1
    intro h
    by_cases h1 : k1 = k
    · rw [dictInsert, if_pos h1] at h
      rcases List.mem_cons.mp h with h2 | h2
      · exact Or.inl h2
      · exact Or.inr (List.mem_cons.mpr (Or.inr h2))
    · rw [dictInsert, if_neg h1] at h
      rcases List.mem_cons.mp h with h2 | h2
      · exact Or.inr (List.mem_cons.mpr (Or.inl h2))
      · rcases ih h2 with h3 | h3
        · exact Or.inl h3
        · exact Or.inr (List.mem_cons.mpr (Or.inr h3))

/-- An update at a present key keeps the key list unchanged. -/
theorem dictInsert_keys_of_mem {β : Type} (m : List (String × β)) (k : String) (v : β)
    (h : lookupKey m k ≠ none) :
    (dictInsert m k v).map Prod.fst = m.map Prod.fst := by
  induction m with
  | nil => simp [lookupKey] at h
  | cons kv rest ih =>
    obtain ⟨k1, v1⟩ := kv
    by_cases h1 : k1 = k
    · subst h1; simp [dictInsert]
    · have h2 : lookupKey rest k ≠ none := by simpa [lookupKey, h1] using h
      simp [dictInsert, h1, ih h2]

/-- Dict updates preserve distinctness of keys. -/
theorem nodupKeys_dictInsert {β : Type} (m : List (String × β)) (k : String) (v : β)
    (hn : (m.map Prod.fst).Nodup) :
    ((dictInsert m k v).map Prod.fst).Nodup := by
  by_cases h : lookupKey m k = none
  · rw [dictInsert_append m k v h]
    have hk : k ∉ m.map Prod.fst := (lookupKey_none_iff m k).mp h
    simp [List.nodup_append, hn, hk]
  · rw [dictInsert_keys_of_mem m k v h]
    exact hn

/-- `insertRule` preserves map well-formedness. -/
theorem goodMap_insertRule {α : Type} (m : List (String × MRule α)) (r : MRule α)
    (hg : GoodMap m) : GoodMap (insertRule m r) := by
  unfold insertRule
  by_cases h : r.rule_id = ""
  · rw [if_pos h]; exact hg
  · rw [if_neg h]
    constructor
    · intro kv hkv
      rcases mem_dictInsert _ _ _ _ hkv with rfl | hkv
      · exact ⟨rfl, h⟩
      · exact hg.1 kv hkv
    · exact nodupKeys_dictInsert m r.rule_id r hg.2

/-- The core/document tier loop preserves map well-formedness. -/
theorem goodMap_insertTier {α : Type} (tier : List (MRule α)) :
    ∀ m : List (String × MRule α), GoodMap m → GoodMap (insertTier m tier) := by
  induction tier with
  | nil => intro m hg; exact hg
  | cons r rest ih =>
    intro m hg
    rw [insertTier_cons]
    exact ih _ (goodMap_insertRule m r hg)

/-- The retailer tier loop preserves map well-formedness. -/
theorem goodMap_insertRetailerTier {α : Type} (tier : List (MRule α)) (dt : String) :
    ∀ m : List (String × MRule α), GoodMap m → GoodMap (insertRetailerTier m tier dt) := by
  induction tier with
  | nil => intro m hg; exact hg
  | cons r rest ih =>
    intro m hg
    rw [insertRetailerTier_cons]
    apply ih
    by_cases h0 : r.rule_id = ""
    · rw [if_pos h0]; exact hg
    · rw [if_neg h0]
      split
      · constructor
        · intro kv hkv
          rcases mem_dictInsert _ _ _ _ hkv with rfl | hkv
          · exact ⟨rfl, h0⟩
          · exact hg.1 kv hkv
        · exact nodupKeys_dictInsert m r.rule_id r hg.2
      · exact hg

/-- Folding the values of a well-formed map into a key-disjoint map appends
the map unchanged. -/
theorem insertTier_values {α : Type} :
    ∀ (m m0 : List (String × MRule α)), GoodMap m →
      (∀ k ∈ m.map Prod.fst, lookupKey m0 k = none) →
      insertTier m0 (m.map Prod.snd) = m0 ++ m := by
  intro m
  induction m with
  | nil => intro m0 _ _; simp [insertTier]
  | cons kv rest ih =>
    obtain ⟨k, v⟩ := kv
    intro m0 hg hdisj
    have hvk : v.rule_id = k ∧ k ≠ "" := hg.1 (k, v) (by simp)
    rw [List.map_cons, insertTier_cons]
    have h0 : lookupKey m0 k = none := hdisj k (by simp)
    have hins : insertRule m0 v = m0 ++ [(k, v)] := by
      unfold insertRule
      rw [if_neg (by rw [hvk.1]; exact hvk.2), hvk.1, dictInsert_append m0 k v h0]
    rw [hins]
    have hnodup := hg.2
    simp only [List.map_cons, List.nodup_cons] at hnodup
    have hgrest : GoodMap rest :=
      ⟨fun kv2 hkv2 => hg.1 kv2 (by simp [hkv2]), hnodup.2⟩
    have hdisj2 : ∀ k2 ∈ rest.map Prod.fst, lookupKey (m0 ++ [(k, v)]) k2 = none := by
      intro k2 hk2
      have hne : k2 ≠ k := fun hh => hnodup.1 (hh ▸ hk2)
      have hkk : ¬k = k2 := fun hh => hne hh.symm
      rw [lookupKey_append_none _ _ _ (hdisj k2 (by simp [hk2]))]
      simp [lookupKey, hkk]
    rw [ih (m0 ++ [(k, v)]) hgrest hdisj2]
    simp

/-- A tier with no occurrence of the key leaves the accumulator alone. -/
theorem foldl_pickLast_of_not_mem {α : Type} (k : String) :
    ∀ (l : List (MRule α)) (i : Option (MRule α)),
      (∀ r ∈ l, r.rule_id ≠ k) → l.foldl (pickLast k) i = i := by
  intro l
  induction l with
  | nil => intro i _; rfl
  | cons r rest ih =>
    intro i h
    rw [List.foldl_cons]
    rw [show pickLast k i r = i from by simp [pickLast, h r (by simp)]]
    exact ih i (fun r2 h2 => h r2 (by simp [h2]))

/-- The accumulator never falls back to `none` once set. -/
theorem foldl_pickLast_ne_none {α : Type} (k : String) :
    ∀ (l : List (MRule α)) (i : Option (MRule α)),
      i ≠ none → l.foldl (pickLast k) i ≠ none := by
  intro l
  induction l with
  | nil => intro i h; exact h
  | cons r rest ih =>
    intro i h
    rw [List.foldl_cons]
    apply ih
    by_cases hc : r.rule_id = k
    · simp [pickLast, hc]
    · simpa [pickLast, hc] using h

/-- When the key occurs in the tier, the last-write fold ignores its
initial accumulator. -/
theorem foldl_pickLast_init_irrel {α : Type} (k : String) :
    ∀ (l : List (MRule α)) (i1 i2 : Option (MRule α)),
      (∃ r ∈ l, r.rule_id = k) →
      l.foldl (pickLast k) i1 = l.foldl (pickLast k) i2 := by
  intro l
  induction l with
  | nil =>
    rintro i1 i2 ⟨r, hr, _⟩
    cases hr
  | cons r rest ih =>
    rintro i1 i2 ⟨r2, hr2, hid⟩
    rw [List.foldl_cons, List.foldl_cons]
    by_cases h : r.rule_id = k
    · rw [show pickLast k i1 r = some r from by simp [pickLast, h],
        show pickLast k i2 r = some r from by simp [pickLast, h]]
    · have hocc : ∃ r3 ∈ rest, r3.rule_id = k := by
        rcases List.mem_cons.mp hr2 with rfl | hm
        · exact absurd hid h
        · exact ⟨r2, hm, hid⟩
      rw [show pickLast k i1 r = i1 from by simp [pickLast, h],
        show pickLast k i2 r = i2 from by simp [pickLast, h]]
      exact ih i1 i2 hocc

/-- Lookup after a tier fold is the last tier write, starting from the
previous binding. -/
theorem lookupKey_insertTier {α : Type} (k : String) (hk : k ≠ "") :
    ∀ (tier : List (MRule α)) (m : List (String × MRule α)),
      lookupKey (insertTier m tier) k = tier.foldl (pickLast k) (lookupKey m k) := by
  intro tier
  induction tier with
  | nil => intro m; rfl
  | cons r rest ih =>
    intro m
    rw [insertTier_cons, List.foldl_cons, ih]
    congr 1
    unfold insertRule pickLast
    by_cases h : r.rule_id = ""
    · rw [if_pos h, if_neg (by rw [h]; exact Ne.symm hk)]
    · rw [if_neg h, lookupKey_dictInsert]

/-- When the key occurs later in the tier and is already bound, the value
just written at it is irrelevant: the tier overwrites it again. -/
theorem insertTier_dictInsert_irrel {α : Type} (k : String) (hk : k ≠ "") :
    ∀ (tier : List (MRule α)) (m : List (String × MRule α)) (v w : MRule α),
      (∃ r ∈ tier, r.rule_id = k) → lookupKey m k ≠ none →
      insertTier (dictInsert m k v) tier = insertTier (dictInsert m k w) tier := by
  intro tier
  induction tier with
  | nil =>
    rintro m v w ⟨r, hr, _⟩ _
    cases hr
  | cons r rest ih =>
    rintro m v w ⟨r2, hr2, hid⟩ hmem
    rw [insertTier_cons, insertTier_cons]
    by_cases h0 : r.rule_id = ""
    · have hocc : ∃ r3 ∈ rest, r3.rule_id = k := by
        rcases List.mem_cons.mp hr2 with rfl | hm
        · rw [hid] at h0; exact absurd h0 hk
        · exact ⟨r2, hm, hid⟩
      rw [show insertRule (dictInsert m k v) r = dictInsert m k v from by
          simp [insertRule, h0],
        show insertRule (dictInsert m k w) r = dictInsert m k w from by
          simp [insertRule, h0]]
      exact ih m v w hocc hmem
    · by_cases h1 : r.rule_id = k
      · rw [show insertRule (dictInsert m k v) r = dictInsert m k r from by
            rw [insertRule, if_neg h0, h1, dictInsert_dictInsert_same],
          show insertRule (dictInsert m k w) r = dictInsert m k r from by
            rw [insertRule, if_neg h0, h1, dictInsert_dictInsert_same]]
      · have hocc : ∃ r3 ∈ rest, r3.rule_id = k := by
          rcases List.mem_cons.mp hr2 with rfl | hm
          · exact absurd hid h1
          · exact ⟨r2, hm, hid⟩
        have hkne : k ≠ r.rule_id := fun hh => h1 hh.symm
        rw [show insertRule (dictInsert m k v) r = dictInsert (dictInsert m r.rule_id r) k v from by
            rw [insertRule, if_neg h0, dictInsert_comm_of_mem m k r.rule_id v r hkne hmem],
          show insertRule (dictInsert m k w) r = dictInsert (dictInsert m r.rule_id r) k w from by
            rw [insertRule, if_neg h0, dictInsert_comm_of_mem m k r.rule_id w r hkne hmem]]
        exact ih (dictInsert m r.rule_id r) v w hocc
          (by rw [lookupKey_dictInsert, if_neg h1]; exact hmem)

/-- Re-folding a tier into a map that already holds every tier key at its
final tier value changes nothing. -/
theorem insertTier_absorb {α : Type} :
    ∀ (tier : List (MRule α)) (m : List (String × MRule α)),
      (∀ k, k ≠ "" → (∃ r ∈ tier, r.rule_id = k) →
        lookupKey m k = tier.foldl (pickLast k) none) →
      insertTier m tier = m := by
  intro tier
  induction tier with
  | nil => intro m _; rfl
  | cons r rest ih =>
    intro m hyp
    rw [insertTier_cons]
    by_cases h0 : r.rule_id = ""
    · rw [show insertRule m r = m from by simp [insertRule, h0]]
      apply ih
      intro k hk hocc
      have h2 := hyp k hk (by rcases hocc with ⟨r3, h3, h3id⟩; exact ⟨r3, by simp [h3], h3id⟩)
      rw [List.foldl_cons] at h2
      have hrk : ¬r.rule_id = k := by rw [h0]; exact Ne.symm hk
      rwa [show pickLast k none r = none from by simp [pickLast, hrk]] at h2
    · rw [show insertRule m r = dictInsert m r.rule_id r from by rw [insertRule, if_neg h0]]
      by_cases hocc : ∃ r3 ∈ rest, r3.rule_id = r.rule_id
      · have hlook := hyp r.rule_id h0 ⟨r, by simp, rfl⟩
        rw [List.foldl_cons] at hlook
        have hsome : lookupKey m r.rule_id ≠ none := by
          rw [hlook]
          apply foldl_pickLast_ne_none
          simp [pickLast]
        obtain ⟨w0, hw0⟩ := Option.ne_none_iff_exists'.mp hsome
        rw [insertTier_dictInsert_irrel r.rule_id h0 rest m r w0 hocc hsome,
          dictInsert_self m r.rule_id w0 hw0]
        apply ih
        intro k hk hocc2
        have h2 := hyp k hk (by rcases hocc2 with ⟨r3, h3, h3id⟩; exact ⟨r3, by simp [h3], h3id⟩)
        rw [List.foldl_cons] at h2
        by_cases hkk : k = r.rule_id
        · subst hkk
          rw [h2]
          exact foldl_pickLast_init_irrel r.rule_id rest _ none hocc
        · have hrk : ¬r.rule_id = k := fun hh => hkk hh.symm
          rwa [show pickLast k none r = none from by simp [pickLast, hrk]] at h2
      · have hnone : ∀ r3 ∈ rest, r3.rule_id ≠ r.rule_id := by
          intro r3 h3 h3id
          exact hocc ⟨r3, h3, h3id⟩
        have hlook := hyp r.rule_id h0 ⟨r, by simp, rfl⟩
        rw [List.foldl_cons, foldl_pickLast_of_not_mem r.rule_id rest _ hnone] at hlook
        rw [show pickLast r.rule_id none r = some r from by simp [pickLast]] at hlook
        rw [dictInsert_self m r.rule_id r hlook]
        apply ih
        intro k hk hocc2
        have hkk : k ≠ r.rule_id := by
          rintro rfl
          rcases hocc2 with ⟨r3, h3, h3id⟩
          exact hnone r3 h3 h3id
        have h2 := hyp k hk (by rcases hocc2 with ⟨r3, h3, h3id⟩; exact ⟨r3, by simp [h3], h3id⟩)
        rw [List.foldl_cons] at h2
        have hrk : ¬r.rule_id = k := fun hh => hkk hh.symm
        rwa [show pickLast k none r = none from by simp [pickLast, hrk]] at h2

/-- The per-category merge of core and document tiers is idempotent under
re-merging with the identical document tier. -/
theorem mergeCategory_idem {α : Type} (core doc : List (MRule α)) (dt : String) :
    mergeCategory (mergeCategory core doc [] dt) doc [] dt =
      mergeCategory core doc [] dt := by
  unfold mergeCategory
  simp only [insertRetailerTier_nil]
  have hgM : GoodMap (insertTier (insertTier [] core) doc) :=
    goodMap_insertTier doc _ (goodMap_insertTier core [] ⟨by simp, by simp⟩)
  have hvals :
      insertTier [] ((insertTier (insertTier [] core) doc).map Prod.snd) =
        insertTier (insertTier [] core) doc := by
    have h := insertTier_values (insertTier (insertTier [] core) doc) [] hgM
      (fun k _ => rfl)
    simpa using h
  rw [hvals]
  congr 1
  apply insertTier_absorb
  intro k hk hocc
  rw [lookupKey_insertTier k hk doc (insertTier [] core)]
  exact foldl_pickLast_init_irrel k doc _ none hocc

/-- C2.  Tier merging is override-idempotent: merging the core and document
tiers and then re-merging the result with an identical document tier yields
the same effective rule list in every category (merging is keyed by rule id
with later tiers overwriting in place). -/
theorem claim_C2 {α : Type} (core doc : RuleTier α) (dt : String) :
    mergeRulesets (mergeRulesets core doc (emptyTier α) dt) doc (emptyTier α) dt =
      mergeRulesets core doc (emptyTier α) dt := by
  unfold mergeRulesets emptyTier
  rw [mergeCategory_idem, mergeCategory_idem, mergeCategory_idem, mergeCategory_idem]

/-- On the values of a key-coherent map, searching by rule id is the map
lookup. -/
theorem findRuleById_eq_lookupKey {α : Type} (m : List (String × MRule α)) (k : String)
    (hg : ∀ kv ∈ m, kv.2.rule_id = kv.1) :
    findRuleById (m.map Prod.snd) k = lookupKey m k := by
  induction m with
  | nil => rfl
  | cons kv rest ih =>
    obtain ⟨k1, v1⟩ := kv
    have hco : v1.rule_id = k1 := hg (k1, v1) (by simp)
    rw [List.map_cons]
    unfold findRuleById
    by_cases h1 : k1 = k
    · subst h1
      have : (v1.rule_id == k1) = true := by simp [hco]
      simp [List.find?_cons, this, lookupKey]
    · have : (v1.rule_id == k) = false := by simp [hco, h1]
      simp only [List.find?_cons, this, lookupKey, if_neg h1]
      exact ih (fun kv2 h2 => hg kv2 (by simp [h2]))

/-- When every retailer-tier rule carrying a given id is filtered out (empty
id or an applies-to restriction excluding the document type), the retailer
loop leaves that id's binding untouched. -/
theorem lookupKey_insertRetailerTier_excluded {α : Type} (dt k : String) :
    ∀ (tier : List (MRule α)) (m : List (String × MRule α)),
      (∀ r2 ∈ tier, r2.rule_id = k →
        r2.rule_id = "" ∨
          (r2.applies_to_doc_types.isEmpty || r2.applies_to_doc_types.contains dt) = false) →
      lookupKey (insertRetailerTier m tier dt) k = lookupKey m k := by
  intro tier
  induction tier with
  | nil => intro m _; rfl
  | cons r rest ih =>
    intro m hyp
    rw [insertRetailerTier_cons]
    have hrest : ∀ r2 ∈ rest, r2.rule_id = k →
        r2.rule_id = "" ∨
          (r2.applies_to_doc_types.isEmpty || r2.applies_to_doc_types.contains dt) = false :=
      fun r2 h2 => hyp r2 (by simp [h2])
    by_cases h0 : r.rule_id = ""
    · rw [if_pos h0]
      exact ih m hrest
    · rw [if_neg h0]
      by_cases hf : (r.applies_to_doc_types.isEmpty || r.applies_to_doc_types.contains dt) = true

      · rw [if_pos hf, ih _ hrest, lookupKey_dictInsert]
        have hrk : ¬r.rule_id = k := by
          intro hh
          rcases hyp r (by simp) hh with h | h
          · exact h0 h
          · rw [hf] at h; cases h
        rw [if_neg hrk]
      · rw [if_neg hf]
        exact ih m hrest

/-- C3.  A retailer-tier rule restricted by a non-empty applies-to list is
never merged for an excluded document type: the merged category binds the
rule id exactly as the core/document merge alone does (absent, or the
lower-tier rule), for all tiers whose rules carry unique ids. -/
theorem claim_C3 {α : Type} (core doc ret : List (MRule α)) (dt : String) (r : MRule α)
    (hmem : r ∈ ret) (hne : r.applies_to_doc_types ≠ [])
    (hex : dt ∉ r.applies_to_doc_types)
    (huniq : ∀ r2 ∈ ret, r2.rule_id = r.rule_id → r2 = r) :
    findRuleById (mergeCategory core doc ret dt) r.rule_id =
      findRuleById (mergeCategory core doc [] dt) r.rule_id := by
  unfold mergeCategory
  simp only [insertRetailerTier_nil]
  have hgM : GoodMap (insertTier (insertTier [] core) doc) :=
    goodMap_insertTier doc _ (goodMap_insertTier core [] ⟨by simp, by simp⟩)
  have hgFull : GoodMap (insertRetailerTier (insertTier (insertTier [] core) doc) ret dt) :=
    goodMap_insertRetailerTier ret dt _ hgM
  rw [findRuleById_eq_lookupKey _ _ (fun kv h => (hgFull.1 kv h).1),
    findRuleById_eq_lookupKey _ _ (fun kv h => (hgM.1 kv h).1)]
  apply lookupKey_insertRetailerTier_excluded
  intro r2 h2 hid
  right
  rw [huniq r2 h2 hid]
  have h1 : r.applies_to_doc_types.isEmpty = false := by
    simpa [List.isEmpty_iff] using hne
  have h2c : r.applies_to_doc_types.contains dt = false := by
    simpa using hex
  rw [h1, h2c]
  rfl

/-- Witness for C3: a retailer rule scoped to document type 856 does not
override the document-tier rule of the same id in a merge for 850. -/
theorem claim_C3_witness :
    ((MRule.mk "R1" [("856")] 7 : MRule Nat) ∈ [MRule.mk "R1" [("856")] 7]) ∧
    findRuleById
        (mergeCategory [MRule.mk "R1" [] 1] [MRule.mk "R1" [] 2]
          [MRule.mk "R1" [("856")] 7] "850")
        (MRule.mk "R1" [("856")] 7 : MRule Nat).rule_id =
      findRuleById
        (mergeCategory [MRule.mk "R1" [] 1] [MRule.mk "R1" [] 2] ([] : List (MRule Nat)) "850")
        (MRule.mk "R1" [("856")] 7 : MRule Nat).rule_id :=
  ⟨by decide,
    claim_C3 [MRule.mk "R1" [] 1] [MRule.mk "R1" [] 2] [MRule.mk "R1" [("856")] 7]
      "850" (MRule.mk "R1" [("856")] 7)
      (by decide) (by decide) (by decide) (by decide)⟩

end EDI
